import Mathlib

/-!
Verification of the WhatsApp gateway rule engine.

This file gives a shallow embedding of the rule engine of the repository
(`src/engine/rules.ts`, `src/clients/ha.ts`, `src/engine/types.ts`,
`src/config.ts`) and proves the specified properties about it.

Modelling conventions:
* JavaScript strings are Lean `String`s; operations that the source performs
  on strings (split, includes, startsWith, substring, toLowerCase) are
  modelled on the underlying `List Char`.  Lowercasing is modelled for the
  ASCII range (`Char.toLower`), and the `\s` whitespace class by its ASCII
  subset; both choices are irrelevant to the proved properties.
* JavaScript truthiness is modelled explicitly: `undefined` is `Option.none`,
  an empty string and the number `0` are falsy.
* External collaborators (the regex engine, the Home-Assistant REST client,
  the Evolution message sender, the database clock) are oracles passed as
  explicit arguments; every external call an execution performs is returned
  as a trace so that "the call was never made" is a provable statement.
* Wall-clock durations (`Date.now()` differences) are modelled as `0`; no
  proved property mentions a duration value.
* Database state (cooldown rows) is an explicit list threaded through the
  engine; `NOW()` is an explicit integer timestamp.
-/

namespace Gateway

/-! ### JavaScript value conventions -/

/-- Truthiness of an optional JS string: `undefined` and `""` are falsy. -/
def jsTruthyStr : Option String → Bool
  | none => false
  | some s => s != ""

/-- `o || d` for an optional JS string: falls back on `undefined` and `""`. -/
def jsOrStr (o : Option String) (d : String) : String :=
  match o with
  | none => d
  | some s => if s == "" then d else s

/-- `s.substring(0, n)` on a JS string. -/
def jsSubstring (s : String) (n : Nat) : String :=
  String.mk (s.data.take n)

/-- `pattern` occurs in `s` (JS `s.includes(pattern)`). -/
def jsIncludes (s pattern : String) : Bool :=
  decide (pattern.data <:+: s.data)

/-- `s.startsWith(pattern)` on a JS string. -/
def jsStartsWith (s pattern : String) : Bool :=
  pattern.data.isPrefixOf s.data

/-! ### Text normalizer (`normaliseText`, rules.ts lines 44-49)

Source: `text.toLowerCase().trim().replace(/\s+/g, ' ')`. -/

/-- The `\s` whitespace class (ASCII subset: space, tab, LF, VT, FF, CR). -/
def isWs (c : Char) : Bool :=
  c == ' ' || c == '\t' || c == '\n' || c == '\r' ||
  c == Char.ofNat 11 || c == Char.ofNat 12

/-- `trim()`: drop whitespace from both ends. -/
def trimList (l : List Char) : List Char :=
  (((l.dropWhile isWs).reverse).dropWhile isWs).reverse

/-- `replace(/\s+/g, ' ')`: every maximal whitespace run becomes one space.
The flag records whether we are inside a whitespace run that has already
emitted its space. -/
def collapseWs : Bool → List Char → List Char
  | _, [] => []
  | inRun, c :: cs =>
    if isWs c then
      if inRun then collapseWs true cs else ' ' :: collapseWs true cs
    else c :: collapseWs false cs

/-- `normaliseText` from rules.ts: lowercase, trim, collapse whitespace. -/
def normaliseText (text : String) : String :=
  String.mk (collapseWs false (trimList (text.data.map Char.toLower)))

/-! ### Phone extractor (`extractPhoneNumber`, rules.ts lines 55-57)

Source: `jidOrPhone.split('@')[0].replace(/[^0-9]/g, '')`. -/

/-- ASCII digit test (the `[^0-9]` class). -/
def isDigitCh (c : Char) : Bool :=
  '0' ≤ c && c ≤ '9'

/-- `extractPhoneNumber` from rules.ts. -/
def extractPhoneNumber (jidOrPhone : String) : String :=
  String.mk (((jidOrPhone.data.splitOn '@').headD []).filter isDigitCh)

/-! ### Data model (`engine/types.ts`) -/

/-- `entity_id?: string | string[]`. -/
abbrev EntityId := Sum String (List String)

/-- `target?: { entity_id?: string | string[] }` of an `ha_service` action. -/
structure EntityTarget where
  entity_id : Option EntityId := none
  deriving DecidableEq

/-- `Record<string, any>` service data; the engine never inspects it, so the
values are modelled as strings. -/
abbrev DataMap := List (String × String)

/-- `RuleAction` (a tagged union probed by field checks in the source). -/
structure RuleAction where
  type : String
  service : Option String := none
  target : Option EntityTarget := none
  data : Option DataMap := none
  text : Option String := none
  deriving DecidableEq

/-- `TextFilter`: `{ mode, patterns }`.  Both fields are optional here
because the matcher defends against their absence at runtime. -/
structure TextFilter where
  mode : Option String := none
  patterns : Option (List String) := none
  deriving DecidableEq

/-- `chat?: { type?, ids? }` filter of a rule. -/
structure ChatFilter where
  type : Option String := none
  ids : Option (List String) := none
  deriving DecidableEq

/-- `sender?: { ids?, numbers? }` filter of a rule. -/
structure SenderFilter where
  ids : Option (List String) := none
  numbers : Option (List String) := none
  deriving DecidableEq

/-- `RuleMatch`: all dimensions optional. -/
structure RuleMatch where
  events : Option (List String) := none
  chat : Option ChatFilter := none
  sender : Option SenderFilter := none
  text : Option TextFilter := none
  deriving DecidableEq

/-- `Rule` as the engine sees it at runtime (fields the code defends against
missing are `Option`). -/
structure Rule where
  id : String
  name : String
  enabled : Bool
  priority : Option Int := none
  stop_on_match : Option Bool := none
  «match» : RuleMatch
  actions : List RuleAction
  cooldown_seconds : Option Int := none
  deriving DecidableEq

/-- `RuleSet`. -/
structure RuleSet where
  version : Int
  rules : List Rule
  deriving DecidableEq

/-- `IncomingMessage` (rules.ts lines 29-38). -/
structure IncomingMessage where
  chatId : String
  chatType : String
  senderId : String
  senderName : Option String := none
  text : String
  messageId : Option String := none
  event : Option String := none
  deriving DecidableEq

/-- One evaluation-trail entry of `ExecutionResult.evaluatedRules`. -/
structure EvaluatedRule where
  id : String
  name : String
  matched : Bool
  reason : String
  skippedCooldown : Option Bool := none
  stoppedChain : Option Bool := none
  deriving DecidableEq

/-- One entry of `ExecutionResult.executedActions`. -/
structure ExecutedAction where
  ruleId : String
  ruleName : String
  type : String
  details : String
  success : Bool
  error : Option String := none
  durationMs : Nat := 0
  deriving DecidableEq

/-- `ExecutionResult` returned by `processMessage`.  The verbose `logs`
strings are diagnostics only and are not modelled. -/
structure ExecutionResult where
  evaluatedRules : List EvaluatedRule
  executedActions : List ExecutedAction
  deriving DecidableEq

/-- One matched-rule entry of a `TestResult`. -/
structure MatchedRuleEntry where
  id : String
  name : String
  reason : String
  deriving DecidableEq

/-- One action-preview entry of a `TestResult`. -/
structure ActionPreview where
  ruleId : String
  type : String
  details : String
  deriving DecidableEq

/-- `TestResult` returned by `testMessage`. -/
structure TestResult where
  matchedRules : List MatchedRuleEntry
  actionsPreview : List ActionPreview
  deriving DecidableEq

/-- Per-action outcome produced by `executeActions` (the source's anonymous
`{ type, success, error?, details?, durationMs? }` records). -/
structure ActionResult where
  type : String
  success : Bool
  error : Option String := none
  details : Option String := none
  durationMs : Option Nat := none
  deriving DecidableEq

/-- `ServiceCallResult` of the HA client. -/
structure ServiceCallResult where
  success : Bool
  error : Option String := none
  deriving DecidableEq

/-- A `wa_cooldown` row. -/
structure CooldownEntry where
  rule_id : String
  scope_key : String
  expires_at : Int
  deriving DecidableEq

/-- A `wa_rule_fire` row (`logRuleFire`).  `actions_executed` is stored
serialized in the database; the embedding keeps the list itself. -/
structure RuleFireRecord where
  rule_id : String
  rule_name : String
  message_id : Option Nat := none
  chat_id : String
  sender_id : String
  matched_text : String
  actions_executed : List ActionResult
  success : Bool
  error_message : Option String := none
  event_type : String
  deriving DecidableEq

/-- A `ValidationError` entry. -/
structure ValidationError where
  path : String
  message : String
  line : Option Nat := none
  deriving DecidableEq

/-- A `ValidationResult`. -/
structure ValidationResult where
  valid : Bool
  errors : List ValidationError
  ruleCount : Nat
  normalizedYaml : Option String := none
  deriving DecidableEq

/-! ### External-world oracles -/

/-- The JS regex engine: `new RegExp(p, 'i')` either fails to compile
(`none`) or yields a case-insensitive test predicate.  The matcher applies
the predicate to the raw message text. -/
structure RegexOracle where
  compileI : String → Option (String → Bool)

/-- The two outbound collaborators: the HA REST client's
`post('/api/services/domain/serviceName', payload)` and the Evolution
client's `sendTextMessage(instance, to, text)`.  `Except.error` models a
thrown exception carrying its message. -/
structure ExtOracle where
  haPost : String → Option String → Option EntityId → DataMap → Except String Unit
  sendText : String → String → String → Except String Unit

/-- A record of one performed HA service call (the POST of `callService`). -/
structure HACall where
  service : String
  domain : String
  serviceName : Option String
  entity_id : Option EntityId
  data : DataMap
  deriving DecidableEq

/-- A record of one performed outbound call. -/
inductive ExtCall where
  | ha : HACall → ExtCall
  | wa : String → String → String → ExtCall
  deriving DecidableEq

/-- `config.allowedServices` and `config.instanceName` (config.ts). -/
structure AppConfig where
  instanceName : String
  allowedServices : List String
  deriving DecidableEq

/-! ### Rule matcher (`RuleEngine.matchRule`, rules.ts lines 310-408)

The source checks six stages in order, returning at the first failure.
Each stage's applicability condition mirrors the source's truthiness
guards. -/

/-- Stage 2 guard: `rule.match.chat?.type && rule.match.chat.type !== 'any'`
yields the chat-type filter to enforce, if any. -/
def chatTypeFilter (rule : Rule) : Option String :=
  match rule.«match».chat with
  | none => none
  | some c =>
    match c.type with
    | none => none
    | some t => if t == "" then none else if t == "any" then none else some t

/-- Stage 3 guard: `rule.match.chat?.ids && rule.match.chat.ids.length > 0`. -/
def chatIdsFilter (rule : Rule) : Option (List String) :=
  match rule.«match».chat with
  | none => none
  | some c =>
    match c.ids with
    | none => none
    | some ids => if ids.length > 0 then some ids else none

/-- Stage 4a guard: `rule.match.sender?.ids && rule.match.sender.ids.length > 0`. -/
def senderIdsFilter (rule : Rule) : Option (List String) :=
  match rule.«match».sender with
  | none => none
  | some s =>
    match s.ids with
    | none => none
    | some ids => if ids.length > 0 then some ids else none

/-- Stage 4b guard: `rule.match.sender?.numbers && ... .length > 0`. -/
def senderNumbersFilter (rule : Rule) : Option (List String) :=
  match rule.«match».sender with
  | none => none
  | some s =>
    match s.numbers with
    | none => none
    | some ns => if ns.length > 0 then some ns else none

/-- Stage 5 guard: `rule.match.text && rule.match.text.patterns &&
rule.match.text.patterns.length > 0`. -/
def textFilterOf (rule : Rule) : Option TextFilter :=
  match rule.«match».text with
  | none => none
  | some tf =>
    match tf.patterns with
    | none => none
    | some ps => if ps.length > 0 then some tf else none

/-- The events a rule subscribes to: `rule.match.events ?? ['MESSAGES_UPSERT']`. -/
def ruleEventsOf (rule : Rule) : List String :=
  rule.«match».events.getD ["MESSAGES_UPSERT"]

/-- The incoming event: `message.event ?? 'MESSAGES_UPSERT'`. -/
def incomingEventOf (message : IncomingMessage) : String :=
  message.event.getD "MESSAGES_UPSERT"

/-- The effective text mode: `rule.match.text.mode || 'contains'`. -/
def textModeOf (tf : TextFilter) : String :=
  jsOrStr tf.mode "contains"

/-- The `switch (mode)` block of stage 5 applied to the message text.
`contains` and `starts_with` compare normalised text; `regex` tests the raw
text and treats a compile failure as a non-match for that pattern.  An
unrecognised mode leaves `textMatched = false`. -/
def textStageMatches (ro : RegexOracle) (tf : TextFilter) (msgText : String) : Bool :=
  let mode := textModeOf tf
  let patterns := tf.patterns.getD []
  let normalisedMessage := normaliseText msgText
  if mode == "contains" then
    patterns.any fun p => jsIncludes normalisedMessage (normaliseText p)
  else if mode == "starts_with" then
    patterns.any fun p => jsStartsWith normalisedMessage (normaliseText p)
  else if mode == "regex" then
    patterns.any fun p =>
      match ro.compileI p with
      | some test => test msgText
      | none => false
  else false

/-- Outcome of `matchRule`. -/
structure MatchOutcome where
  «matches» : Bool
  reason : String
  deriving DecidableEq

/-- Stage 6 and the success exit of `matchRule`. -/
def matchStageText (ro : RegexOracle) (rule : Rule) (message : IncomingMessage)
    (reasons : List String) : MatchOutcome :=
  match textFilterOf rule with
  | none => ⟨true, String.intercalate ", " reasons⟩
  | some tf =>
    if textStageMatches ro tf message.text then
      ⟨true, String.intercalate ", " (reasons ++ ["text " ++ textModeOf tf ++ " matched"])⟩
    else ⟨false, "text did not match " ++ textModeOf tf ++ " patterns"⟩

/-- Stage 4b of `matchRule` (sender phone numbers). -/
def matchStageSenderNumbers (ro : RegexOracle) (rule : Rule) (message : IncomingMessage)
    (reasons : List String) : MatchOutcome :=
  match senderNumbersFilter rule with
  | none => matchStageText ro rule message reasons
  | some ns =>
    let senderPhone := extractPhoneNumber message.senderId
    if ns.any (fun n => extractPhoneNumber n == senderPhone) then
      matchStageText ro rule message (reasons ++ ["senderNumber matched"])
    else ⟨false, "senderPhone " ++ senderPhone ++ " not in allowed list"⟩

/-- Stage 4a of `matchRule` (exact sender JIDs). -/
def matchStageSenderIds (ro : RegexOracle) (rule : Rule) (message : IncomingMessage)
    (reasons : List String) : MatchOutcome :=
  match senderIdsFilter rule with
  | none => matchStageSenderNumbers ro rule message reasons
  | some ids =>
    if ids.contains message.senderId then
      matchStageSenderNumbers ro rule message (reasons ++ ["senderId matched"])
    else ⟨false, "senderId " ++ message.senderId ++ " not in allowed list"⟩

/-- Stage 3 of `matchRule` (chat ids). -/
def matchStageChatIds (ro : RegexOracle) (rule : Rule) (message : IncomingMessage)
    (reasons : List String) : MatchOutcome :=
  match chatIdsFilter rule with
  | none => matchStageSenderIds ro rule message reasons
  | some ids =>
    if ids.contains message.chatId then
      matchStageSenderIds ro rule message (reasons ++ ["chatId matched"])
    else ⟨false, "chatId " ++ message.chatId ++ " not in allowed list"⟩

/-- Stage 2 of `matchRule` (chat type). -/
def matchStageChatType (ro : RegexOracle) (rule : Rule) (message : IncomingMessage)
    (reasons : List String) : MatchOutcome :=
  match chatTypeFilter rule with
  | none => matchStageChatIds ro rule message reasons
  | some t =>
    if t == message.chatType then
      matchStageChatIds ro rule message (reasons ++ ["chatType=" ++ message.chatType])
    else ⟨false, "chatType " ++ message.chatType ++ " ≠ " ++ t⟩

/-- `RuleEngine.matchRule`: stage 1 (event) and the stage chain. -/
def matchRule (ro : RegexOracle) (rule : Rule) (message : IncomingMessage) : MatchOutcome :=
  let ruleEvents := ruleEventsOf rule
  let incomingEvent := incomingEventOf message
  if ruleEvents.contains incomingEvent then
    matchStageChatType ro rule message ["event=" ++ incomingEvent]
  else
    ⟨false, "event " ++ incomingEvent ++ " not in [" ++ String.intercalate ", " ruleEvents ++ "]"⟩

/-! Stand-alone pass/fail predicates for the six stages, used to state the
short-circuiting-AND property. -/

/-- Stage 1 passes. -/
def stagePassEvent (rule : Rule) (message : IncomingMessage) : Bool :=
  (ruleEventsOf rule).contains (incomingEventOf message)

/-- Stage 2 passes. -/
def stagePassChatType (rule : Rule) (message : IncomingMessage) : Bool :=
  match chatTypeFilter rule with
  | none => true
  | some t => t == message.chatType

/-- Stage 3 passes. -/
def stagePassChatIds (rule : Rule) (message : IncomingMessage) : Bool :=
  match chatIdsFilter rule with
  | none => true
  | some ids => ids.contains message.chatId

/-- Stage 4a passes. -/
def stagePassSenderIds (rule : Rule) (message : IncomingMessage) : Bool :=
  match senderIdsFilter rule with
  | none => true
  | some ids => ids.contains message.senderId

/-- Stage 4b passes. -/
def stagePassSenderNumbers (rule : Rule) (message : IncomingMessage) : Bool :=
  match senderNumbersFilter rule with
  | none => true
  | some ns => ns.any fun n => extractPhoneNumber n == extractPhoneNumber message.senderId

/-- Stage 5 passes. -/
def stagePassText (ro : RegexOracle) (rule : Rule) (message : IncomingMessage) : Bool :=
  match textFilterOf rule with
  | none => true
  | some tf => textStageMatches ro tf message.text

/-! ### HA client (`HAClient.callService`, ha.ts lines 335-369)

The second component of the result is the trace of performed POSTs: the
allowlist-violation exit performs none. -/

namespace HAClient

/-- The allowlist-violation error string of `callService`. -/
def allowlistError (service : String) (allowed : List String) : String :=
  "Service '" ++ service ++ "' is not in the allowed list. Allowed: " ++
    String.intercalate ", " allowed

/-- JS truthiness of `target?.entity_id` (an empty string is falsy, an
array — even an empty one — is truthy). -/
def jsTruthyEntity : Option EntityId → Bool
  | none => false
  | some (.inl s) => s != ""
  | some (.inr _) => true

/-- `const [domain, serviceName] = service.split('.')`. -/
def haDomain (service : String) : String :=
  ((service.data.splitOn '.').map String.mk).headD ""

/-- The second component of the service split (`undefined` when absent). -/
def haServiceName (service : String) : Option String :=
  ((service.data.splitOn '.').map String.mk).get? 1

/-- `if (target?.entity_id) payload.entity_id = target.entity_id`. -/
def haEntity (target : Option EntityTarget) : Option EntityId :=
  if jsTruthyEntity (target.bind (·.entity_id)) then target.bind (·.entity_id) else none

/-- The record of the POST performed by `callService`. -/
def haCallOf (service : String) (target : Option EntityTarget)
    (data : Option DataMap) : HACall :=
  ⟨service, haDomain service, haServiceName service, haEntity target, data.getD []⟩

/-- The dispatch part of `callService`: split the service identifier on
`'.'`, build the payload (`{...data}` plus `entity_id` when truthy) and
POST it.  A thrown request error is caught and converted to
`success:false`. -/
def dispatchService (o : ExtOracle) (service : String) (target : Option EntityTarget)
    (data : Option DataMap) : ServiceCallResult × List HACall :=
  match o.haPost (haDomain service) (haServiceName service) (haEntity target)
      (data.getD []) with
  | .ok _ => (⟨true, none⟩, [haCallOf service target data])
  | .error e => (⟨false, some e⟩, [haCallOf service target data])

/-- `HAClient.callService`: the allowlist check is only applied when the
caller supplied a non-empty allowlist (`allowedServices &&
allowedServices.length > 0`). -/
def callService (o : ExtOracle) (service : String) (target : Option EntityTarget)
    (data : Option DataMap) (allowedServices : Option (List String)) :
    ServiceCallResult × List HACall :=
  if (allowedServices.getD []).length > 0 && !((allowedServices.getD []).contains service) then
    (⟨false, some (allowlistError service (allowedServices.getD []))⟩, [])
  else dispatchService o service target data

end HAClient

/-! ### Rule engine orchestration (`engine/rules.ts`) -/

namespace RuleEngine

/-- `${action.service}` in a template literal: `undefined` prints as the
string `"undefined"`. -/
def jsShowOptStr : Option String → String
  | none => "undefined"
  | some s => s

/-- `RuleEngine.describeAction` (rules.ts lines 507-515). -/
def describeAction (action : RuleAction) : String :=
  if action.type == "ha_service" then
    let target :=
      match action.target.bind (·.entity_id) with
      | some (.inl s) => if s == "" then "no target" else s
      | some (.inr l) => String.intercalate "," l
      | none => "no target"
    "Call " ++ jsShowOptStr action.service ++ " on " ++ target
  else if action.type == "reply_whatsapp" then
    let shown := match action.text with
      | some s => jsSubstring s 50
      | none => "undefined"
    let ell := if (match action.text with | some s => s.length | none => 0) > 50
      then "..." else ""
    "Reply: \"" ++ shown ++ ell ++ "\""
  else action.type

/-- An action enters one of the two `executeActions` branches: a known type
whose required field is present and non-empty (JS truthiness). -/
def actionEligible (action : RuleAction) : Bool :=
  (action.type == "ha_service" && jsTruthyStr action.service) ||
  (action.type == "reply_whatsapp" && jsTruthyStr action.text)

/-- One iteration of the `executeActions` loop: the outcome pushed for this
action (if any) and the external calls it performed.  Durations are
modelled as `0`. -/
def runAction (o : ExtOracle) (cfg : AppConfig) (message : IncomingMessage)
    (action : RuleAction) : Option ActionResult × List ExtCall :=
  if action.type == "ha_service" && jsTruthyStr action.service then
    (some ⟨"ha_service",
        (HAClient.callService o (action.service.getD "") action.target action.data
          (some cfg.allowedServices)).1.success,
        (HAClient.callService o (action.service.getD "") action.target action.data
          (some cfg.allowedServices)).1.error,
        some (describeAction action), some 0⟩,
      (HAClient.callService o (action.service.getD "") action.target action.data
        (some cfg.allowedServices)).2.map ExtCall.ha)
  else if action.type == "reply_whatsapp" && jsTruthyStr action.text then
    match o.sendText cfg.instanceName message.chatId (action.text.getD "") with
    | .ok _ =>
      (some ⟨"reply_whatsapp", true, none, some (describeAction action), some 0⟩,
        [ExtCall.wa cfg.instanceName message.chatId (action.text.getD "")])
    | .error e =>
      (some ⟨action.type, false, some e, some (describeAction action), some 0⟩,
        [ExtCall.wa cfg.instanceName message.chatId (action.text.getD "")])
  else (none, [])

/-- The `executeActions` loop over a list of actions. -/
def executeActionsList (o : ExtOracle) (cfg : AppConfig) (message : IncomingMessage) :
    List RuleAction → List ActionResult × List ExtCall
  | [] => ([], [])
  | action :: rest =>
    let step := runAction o cfg message action
    let tail := executeActionsList o cfg message rest
    (step.1.toList ++ tail.1, step.2 ++ tail.2)

/-- `RuleEngine.executeActions` (rules.ts lines 412-454). -/
def executeActions (o : ExtOracle) (cfg : AppConfig) (rule : Rule)
    (message : IncomingMessage) : List ActionResult × List ExtCall :=
  executeActionsList o cfg message rule.actions

/-- `RuleEngine.logRuleFire` (rules.ts lines 477-503) as the row it inserts.
`JSON.stringify(results)` is modelled by keeping the result list; a joined
empty error string stores `NULL` (`errors || null`). -/
def mkRuleFire (rule : Rule) (message : IncomingMessage) (dbMessageId : Option Nat)
    (results : List ActionResult) : RuleFireRecord :=
  let allSuccess := results.all (·.success)
  let errors := String.intercalate "; "
    ((results.filter (fun r => !r.success)).map (fun r => r.error.getD ""))
  { rule_id := rule.id
    rule_name := rule.name
    message_id := dbMessageId
    chat_id := message.chatId
    sender_id := message.senderId
    matched_text := jsSubstring message.text 500
    actions_executed := results
    success := allSuccess
    error_message := if errors == "" then none else some errors
    event_type := jsOrStr message.event "MESSAGES_UPSERT" }

/-! #### Cooldown tracker (rules.ts lines 458-473) -/

/-- `DELETE FROM wa_cooldown WHERE expires_at < NOW()`. -/
def purgeCooldowns (now : Int) (cds : List CooldownEntry) : List CooldownEntry :=
  cds.filter fun e => !(e.expires_at < now)

/-- The `SELECT 1 ... WHERE rule_id = ? AND scope_key = ? AND expires_at > NOW()`
lookup. -/
def cooldownHit (now : Int) (cds : List CooldownEntry) (ruleId scopeKey : String) : Bool :=
  cds.any fun e => e.rule_id == ruleId && e.scope_key == scopeKey && now < e.expires_at

/-- `RuleEngine.isOnCooldown`: purge expired rows, then look up.  The purged
table is returned because the purge mutates the store. -/
def isOnCooldown (now : Int) (cds : List CooldownEntry) (ruleId scopeKey : String) :
    Bool × List CooldownEntry :=
  let cds' := purgeCooldowns now cds
  (cooldownHit now cds' ruleId scopeKey, cds')

/-- `RuleEngine.setCooldown`: upsert on the `(rule_id, scope_key)` key with
expiry `NOW() + seconds`. -/
def setCooldown (now : Int) (cds : List CooldownEntry) (ruleId scopeKey : String)
    (seconds : Int) : List CooldownEntry :=
  (cds.filter fun e => !(e.rule_id == ruleId && e.scope_key == scopeKey)) ++
    [⟨ruleId, scopeKey, now + seconds⟩]

/-! #### processMessage (rules.ts lines 229-302) -/

/-- `(a.priority || 100)`: `undefined` and `0` are falsy and fall back to
`100`. -/
def priorityOf (rule : Rule) : Int :=
  match rule.priority with
  | none => 100
  | some p => if p == 0 then 100 else p

/-- Stable insertion of a rule into an already-sorted list: the inserted
rule goes before the first strictly larger key, hence after earlier rules
with an equal key. -/
def insertByPriority (rule : Rule) : List Rule → List Rule
  | [] => [rule]
  | b :: l =>
    if priorityOf rule ≤ priorityOf b then rule :: b :: l
    else b :: insertByPriority rule l

/-- A stable ascending sort by effective priority.  Models
`[...].sort((a, b) => (a.priority || 100) - (b.priority || 100))`:
JS `Array.prototype.sort` is stable, and every stable ascending sort of a
list yields the same result. -/
def stableSortByPriority : List Rule → List Rule
  | [] => []
  | rule :: rest => insertByPriority rule (stableSortByPriority rest)

/-- The working list of `processMessage`/`testMessage`: enabled rules only,
stable-sorted by effective priority. -/
def sortRules (rules : List Rule) : List Rule :=
  stableSortByPriority (rules.filter (·.enabled))

/-- `rule.stop_on_match !== false` (default `true`). -/
def stopOnMatch (rule : Rule) : Bool :=
  rule.stop_on_match != some false

/-- `rule.cooldown_seconds && rule.cooldown_seconds > 0`. -/
def cooldownPositive (rule : Rule) : Bool :=
  match rule.cooldown_seconds with
  | none => false
  | some s => !(s == 0) && 0 < s

/-- The evaluation entry recorded for a rule skipped on cooldown. -/
def cooldownEvalEntry (rule : Rule) : EvaluatedRule :=
  { id := rule.id, name := rule.name, matched := false, reason := "on cooldown",
    skippedCooldown := some true }

/-- The evaluation entry recorded for a rule that did not match
(`matchResult.reason || 'no match'`). -/
def noMatchEvalEntry (rule : Rule) (m : MatchOutcome) : EvaluatedRule :=
  { id := rule.id, name := rule.name, matched := false,
    reason := jsOrStr (some m.reason) "no match" }

/-- The evaluation entry recorded for a matched rule. -/
def matchedEvalEntry (rule : Rule) (m : MatchOutcome) : EvaluatedRule :=
  { id := rule.id, name := rule.name, matched := true, reason := m.reason,
    stoppedChain := some (stopOnMatch rule) }

/-- The `executedActions` entry pushed for one action result
(`ar.details || ''`, `ar.durationMs || 0`). -/
def toExecutedAction (rule : Rule) (ar : ActionResult) : ExecutedAction :=
  { ruleId := rule.id, ruleName := rule.name, type := ar.type,
    details := ar.details.getD "", success := ar.success, error := ar.error,
    durationMs := ar.durationMs.getD 0 }

/-- Everything one `processMessage` call produces: the returned result, the
final cooldown table, the appended `wa_rule_fire` rows and the performed
external calls. -/
structure RunOutcome where
  evaluated : List EvaluatedRule
  executed : List ExecutedAction
  cooldowns : List CooldownEntry
  fires : List RuleFireRecord
  calls : List ExtCall
  deriving DecidableEq

/-- The `for (const rule of sortedRules)` loop of `processMessage`. -/
def runRules (ro : RegexOracle) (o : ExtOracle) (cfg : AppConfig)
    (message : IncomingMessage) (dbMessageId : Option Nat) (now : Int) :
    List Rule → List CooldownEntry → RunOutcome
  | [], cds => ⟨[], [], cds, [], []⟩
  | rule :: rest, cds =>
    let cd := isOnCooldown now cds rule.id message.chatId
    if cd.1 then
      let tail := runRules ro o cfg message dbMessageId now rest cd.2
      ⟨cooldownEvalEntry rule :: tail.evaluated, tail.executed, tail.cooldowns,
        tail.fires, tail.calls⟩
    else
      let m := matchRule ro rule message
      if m.«matches» then
        let acts := executeActions o cfg rule message
        let fire := mkRuleFire rule message dbMessageId acts.1
        let executed := acts.1.map (toExecutedAction rule)
        let cds2 := if cooldownPositive rule then
            setCooldown now cd.2 rule.id message.chatId ((rule.cooldown_seconds).getD 0)
          else cd.2
        if stopOnMatch rule then
          ⟨[matchedEvalEntry rule m], executed, cds2, [fire], acts.2⟩
        else
          let tail := runRules ro o cfg message dbMessageId now rest cds2
          ⟨matchedEvalEntry rule m :: tail.evaluated, executed ++ tail.executed,
            tail.cooldowns, fire :: tail.fires, acts.2 ++ tail.calls⟩
      else
        let tail := runRules ro o cfg message dbMessageId now rest cd.2
        ⟨noMatchEvalEntry rule m :: tail.evaluated, tail.executed, tail.cooldowns,
          tail.fires, tail.calls⟩

/-- `RuleEngine.processMessage`: a missing rule cache is a no-op; otherwise
iterate the sorted working list. -/
def processMessage (ro : RegexOracle) (o : ExtOracle) (cfg : AppConfig)
    (cache : Option RuleSet) (message : IncomingMessage) (dbMessageId : Option Nat)
    (now : Int) (cds : List CooldownEntry) : RunOutcome :=
  match cache with
  | none => ⟨[], [], cds, [], []⟩
  | some rs => runRules ro o cfg message dbMessageId now (sortRules rs.rules) cds

/-- The cooldown table after a matched rule fires. -/
def cooldownsAfterFire (now : Int) (rule : Rule) (message : IncomingMessage)
    (cds : List CooldownEntry) : List CooldownEntry :=
  if cooldownPositive rule then
    setCooldown now (purgeCooldowns now cds) rule.id message.chatId
      ((rule.cooldown_seconds).getD 0)
  else purgeCooldowns now cds

/-- The `for (const rule of sortedRules)` loop of `testMessage`. -/
def testRules (ro : RegexOracle) (message : IncomingMessage) :
    List Rule → TestResult
  | [] => ⟨[], []⟩
  | rule :: rest =>
    let m := matchRule ro rule message
    if m.«matches» then
      let entry : MatchedRuleEntry := ⟨rule.id, rule.name, m.reason⟩
      let acts := rule.actions.map fun a =>
        (⟨rule.id, a.type, describeAction a⟩ : ActionPreview)
      if stopOnMatch rule then ⟨[entry], acts⟩
      else
        let tail := testRules ro message rest
        ⟨entry :: tail.matchedRules, acts ++ tail.actionsPreview⟩
    else testRules ro message rest

/-- `RuleEngine.testMessage` (rules.ts lines 201-225): pure simulation. -/
def testMessage (ro : RegexOracle) (cache : Option RuleSet)
    (message : IncomingMessage) : TestResult :=
  match cache with
  | none => ⟨[], []⟩
  | some rs => testRules ro message (sortRules rs.rules)

/-! #### validateYaml, syntax-error path (rules.ts lines 101-114) -/

/-- The position attached to a js-yaml syntax error (`e.mark`), whose
`line` is 0-based. -/
structure YamlMark where
  line : Nat
  deriving DecidableEq

/-- A js-yaml syntax error. -/
structure YamlError where
  message : String
  mark : Option YamlMark := none
  deriving DecidableEq

/-- `e.mark?.line ? e.mark.line + 1 : undefined`: the line is reported only
when `e.mark` exists and `e.mark.line` is truthy (i.e. non-zero). -/
def syntaxErrorLine (e : YamlError) : Option Nat :=
  match e.mark with
  | none => none
  | some m => if m.line == 0 then none else some (m.line + 1)

/-- The `catch` branch of `validateYaml`: parsing the source text is the
external `yaml.load`, modelled by its outcome.  On a parse error the
result is built here; on success validation continues with the parsed
document (not needed by the proved properties, hence the continuation). -/
def validateYamlFromParse {α : Type} (parseOutcome : Except YamlError α)
    (continue_ : α → ValidationResult) : ValidationResult :=
  match parseOutcome with
  | .error e =>
    { valid := false
      errors := [{ path := "", message := "YAML syntax error: " ++ e.message,
                   line := syntaxErrorLine e }]
      ruleCount := 0 }
  | .ok a => continue_ a

end RuleEngine

/-! ### Concrete fixtures used by the theorems below -/

/-- A regex oracle on which every pattern fails to compile. -/
def noRegex : RegexOracle := ⟨fun _ => none⟩

/-- A regex oracle that compiles every pattern to a literal-substring test. -/
def litRegex : RegexOracle := ⟨fun p => some fun s => decide (p.data <:+: s.data)⟩

/-- An external world in which every outbound call succeeds. -/
def okOracle : ExtOracle := ⟨fun _ _ _ _ => .ok (), fun _ _ _ => .ok ()⟩

/-- The default add-on configuration (config.ts defaults). -/
def cfg0 : AppConfig := ⟨"Home", ["script.turn_on", "automation.trigger"]⟩

/-- A group message fixture. -/
def exMsg : IncomingMessage :=
  { chatId := "120363123456789012@g.us", chatType := "group",
    senderId := "31612345678@s.whatsapp.net", text := "say goodnight please" }

/-- Catch-all rule at priority 50; `stop_on_match` is left to its default. -/
def exRuleFirst : Rule :=
  { id := "first", name := "First", enabled := true, priority := some 50,
    «match» := {}, actions := [{ type := "reply_whatsapp", text := some "one" }] }

/-- Catch-all rule at priority 100. -/
def exRuleSecond : Rule :=
  { id := "second", name := "Second", enabled := true, priority := some 100,
    «match» := {}, actions := [{ type := "reply_whatsapp", text := some "two" }] }

/-- A rule with priority 0 whose text filter matches nothing in `exMsg`. -/
def exRuleZero : Rule :=
  { id := "a", name := "Zero", enabled := true, priority := some 0,
    «match» := { text := some { mode := some "contains", patterns := some ["zzz"] } },
    actions := [{ type := "reply_whatsapp", text := some "zero" }] }

/-- A rule with priority 50 whose text filter matches nothing in `exMsg`. -/
def exRuleFifty : Rule :=
  { id := "b", name := "Fifty", enabled := true, priority := some 50,
    «match» := { text := some { mode := some "contains", patterns := some ["zzz"] } },
    actions := [{ type := "reply_whatsapp", text := some "fifty" }] }

/-- A catch-all rule with a 60-second cooldown. -/
def exRuleCooldown : Rule :=
  { id := "cd", name := "Cooldown", enabled := true, «match» := {},
    actions := [{ type := "reply_whatsapp", text := some "hi" }],
    cooldown_seconds := some 60 }

/-- A rule whose first two actions are skipped by the executor (empty
required field, unknown type) and whose last one is executed. -/
def exRuleMixed : Rule :=
  { id := "mixed", name := "Mixed", enabled := true, «match» := {},
    actions := [{ type := "ha_service", service := some "" },
                { type := "set_volume" },
                { type := "reply_whatsapp", text := some "done" }] }

/-- A matched rule all of whose actions are skipped by the executor. -/
def exRuleAllSkipped : Rule :=
  { id := "skip", name := "Skip", enabled := true, «match» := {},
    actions := [{ type := "ha_service" }, { type := "tts_announce" }] }

/-- A rule constraining the chat type to direct chats and the text, used to
exhibit the stage evaluation order against the group message `exMsg`. -/
def exRuleDirect : Rule :=
  { id := "st", name := "Stages", enabled := true,
    «match» := { chat := some { type := some "direct" },
                 text := some { mode := some "contains", patterns := some ["zzz"] } },
    actions := [{ type := "reply_whatsapp", text := some "st" }] }

/-- A text filter in regex mode. -/
def tfRegex : TextFilter := { mode := some "regex", patterns := some ["good(night|morning)"] }

/-- A rule with a regex text filter. -/
def exRuleRegex : Rule :=
  { id := "rx", name := "Rx", enabled := true,
    «match» := { text := some tfRegex },
    actions := [{ type := "reply_whatsapp", text := some "rx" }] }

/-- A rule whose single action calls an allowlisted HA service. -/
def exRuleHa : Rule :=
  { id := "ha", name := "HA", enabled := true, «match» := {},
    actions := [{ type := "ha_service", service := some "script.turn_on" }] }

/-- Prepend an evaluation entry to a run outcome (the shape of one loop
iteration that continues to the next rule). -/
def consEval (e : EvaluatedRule) (r : RuleEngine.RunOutcome) : RuleEngine.RunOutcome :=
  ⟨e :: r.evaluated, r.executed, r.cooldowns, r.fires, r.calls⟩

/-! ## Verification -/

/-! ### Helper lemmas on the phone extractor -/

/-- The first chunk of a character-level split is the prefix before the
first separator. -/
lemma splitOn_headD_takeWhile (sep : Char) (l : List Char) :
    (l.splitOn sep).headD [] = l.takeWhile (fun c => c != sep) := by
  induction l with
  | nil => simp [List.splitOn_nil]
  | cons c cs ih =>
    rw [show List.splitOn sep (c :: cs) = List.splitOnP (· == sep) (c :: cs) from rfl,
        List.splitOnP_cons]
    by_cases h : c == sep
    · simp [beq_iff_eq.mp h, List.takeWhile_cons]
    · have hne := List.splitOnP_ne_nil (fun x => x == sep) cs
      cases hsp : List.splitOnP (fun x => x == sep) cs with
      | nil => exact absurd hsp hne
      | cons h0 t =>
        have ih' : h0 = cs.takeWhile (fun c => c != sep) := by
          rw [← ih, show List.splitOn sep cs = List.splitOnP (· == sep) cs from rfl, hsp]
          rfl
        simp only [hsp, List.modifyHead, List.takeWhile_cons]
        simp [beq_iff_eq.not.mp h, ih']

/-! ### Helper lemmas on the text normalizer -/

/-- `Char.ofNat` inverts on valid code points. -/
lemma toNat_ofNat_valid (n : Nat) (h : n.isValidChar) : (Char.ofNat n).toNat = n := by
  unfold Char.ofNat
  rw [dif_pos h]
  rfl

/-- ASCII lowercasing is idempotent. -/
lemma toLower_idem (c : Char) : c.toLower.toLower = c.toLower := by
  unfold Char.toLower
  by_cases h : c.toNat ≥ 65 ∧ c.toNat ≤ 90
  · have hv : (c.toNat + 32).isValidChar := by
      left
      omega
    rw [if_pos h]
    rw [toNat_ofNat_valid _ hv]
    have : ¬(c.toNat + 32 ≥ 65 ∧ c.toNat + 32 ≤ 90) := by omega
    rw [if_neg this]
  · rw [if_neg h, if_neg h]

/-- The collapse marker is a fixpoint of lowercasing. -/
lemma toLower_space : Char.toLower ' ' = ' ' := by decide

/-- Mapping a function that fixes every member is the identity. -/
lemma map_toLower_fix {l : List Char} (h : ∀ c ∈ l, c.toLower = c) :
    l.map Char.toLower = l := by
  induction l with
  | nil => rfl
  | cons c cs ih =>
    simp only [List.map_cons, h c (by simp)]
    rw [ih fun d hd => h d (by simp [hd])]

/-- Characters of the collapse output come from the input or are the
emitted space. -/
lemma mem_collapseWs {c : Char} : ∀ (b : Bool) (l : List Char), c ∈ collapseWs b l →
    c = ' ' ∨ c ∈ l := by
  intro b l
  induction l generalizing b with
  | nil => simp [collapseWs]
  | cons a l' ih =>
    intro hc
    rw [collapseWs] at hc
    by_cases ha : isWs a
    · rw [if_pos ha] at hc
      cases b with
      | true =>
        rcases ih true hc with h | h
        · exact Or.inl h
        · exact Or.inr (by simp [h])
      | false =>
        simp only [if_neg, Bool.false_eq_true] at hc
        rcases List.mem_cons.mp hc with h | h
        · exact Or.inl h
        · rcases ih true h with h' | h'
          · exact Or.inl h'
          · exact Or.inr (by simp [h'])
    · rw [if_neg ha] at hc
      rcases List.mem_cons.mp hc with h | h
      · exact Or.inr (by simp [h])
      · rcases ih false h with h' | h'
        · exact Or.inl h'
        · exact Or.inr (by simp [h'])

/-- Characters of the trim output come from the input. -/
lemma mem_trimList {c : Char} {l : List Char} (h : c ∈ trimList l) : c ∈ l := by
  unfold trimList at h
  rw [List.mem_reverse] at h
  have h1 := (List.dropWhile_sublist isWs).mem h
  rw [List.mem_reverse] at h1
  exact (List.dropWhile_sublist isWs).mem h1

/-- The head surviving a `dropWhile` refutes the predicate. -/
lemma head?_dropWhile_false {p : α → Bool} {l : List α} {c : α}
    (h : (l.dropWhile p).head? = some c) : p c = false := by
  have := List.head?_dropWhile_not p l
  rw [h] at this
  exact this

/-- `getLast?` skips a cons onto a non-empty list. -/
lemma getLast?_cons_ne {a : α} {l : List α} (h : l ≠ []) :
    (a :: l).getLast? = l.getLast? := by
  cases l with
  | nil => exact absurd rfl h
  | cons b t => exact List.getLast?_cons_cons

/-- A non-empty suffix determines the last element. -/
lemma getLast?_suffix_ne {l₁ l₂ : List α} (h : l₁ <:+ l₂) (hne : l₁ ≠ []) :
    l₂.getLast? = l₁.getLast? := by
  rcases h with ⟨t, rfl⟩
  rw [List.getLast?_append]
  cases hl : l₁.getLast? with
  | none => exact absurd (List.getLast?_eq_none_iff.mp hl) hne
  | some x => rfl

/-- Trimming leaves no leading whitespace. -/
lemma trimList_head_not_ws {l : List Char} {c : Char}
    (h : (trimList l).head? = some c) : isWs c = false := by
  unfold trimList at h
  rw [List.head?_reverse] at h
  set x := (l.dropWhile isWs).reverse.dropWhile isWs with hx
  have hxne : x ≠ [] := by
    intro hnil
    rw [hnil] at h
    simp at h
  have hsuf : x <:+ (l.dropWhile isWs).reverse := List.dropWhile_suffix isWs
  have := getLast?_suffix_ne hsuf hxne
  rw [← this, List.getLast?_reverse] at h
  exact head?_dropWhile_false h

/-- Trimming leaves no trailing whitespace. -/
lemma trimList_getLast_not_ws {l : List Char} {c : Char}
    (h : (trimList l).getLast? = some c) : isWs c = false := by
  unfold trimList at h
  rw [List.getLast?_reverse] at h
  exact head?_dropWhile_false h

/-- Inside a run, the collapse next emits a non-whitespace character. -/
lemma collapseWs_head_true_not_ws : ∀ (l : List Char) (c : Char),
    (collapseWs true l).head? = some c → isWs c = false := by
  intro l
  induction l with
  | nil => intro c h; simp [collapseWs] at h
  | cons a l' ih =>
    intro c h
    rw [collapseWs] at h
    by_cases ha : isWs a
    · rw [if_pos ha, if_pos rfl] at h
      exact ih c h
    · rw [if_neg ha] at h
      simp at h
      subst h
      simp [ha]

/-- Collapsing preserves a whitespace-free head. -/
lemma collapseWs_head_not_ws {l : List Char} {c : Char}
    (hl : ∀ d, l.head? = some d → isWs d = false)
    (h : (collapseWs false l).head? = some c) : isWs c = false := by
  cases l with
  | nil => simp [collapseWs] at h
  | cons a l' =>
    have ha : isWs a = false := hl a rfl
    rw [collapseWs, if_neg (by simp [ha])] at h
    simp at h
    subst h
    exact ha

/-- Collapsing a list with a whitespace-free last element yields one. -/
lemma collapseWs_getLast_ex : ∀ (l : List Char) (b : Bool) (c : Char),
    l.getLast? = some c → isWs c = false →
    ∃ d, (collapseWs b l).getLast? = some d ∧ isWs d = false := by
  intro l
  induction l with
  | nil => intro b c h _; simp at h
  | cons a l' ih =>
    intro b c h hc
    by_cases hl' : l' = []
    · subst hl'
      simp at h
      subst h
      rw [collapseWs, if_neg (by simp [hc])]
      exact ⟨a, by simp [collapseWs], hc⟩
    · rw [getLast?_cons_ne hl'] at h
      rw [collapseWs]
      by_cases ha : isWs a
      · rw [if_pos ha]
        cases b with
        | true =>
          simpa using ih true c h hc
        | false =>
          rcases ih true c h hc with ⟨d, hd, hdw⟩
          refine ⟨d, ?_, hdw⟩
          have hne2 : collapseWs true l' ≠ [] := by
            intro hnil
            rw [hnil] at hd
            simp at hd
          rw [if_neg (by simp), getLast?_cons_ne hne2]
          exact hd
      · rw [if_neg ha]
        rcases ih false c h hc with ⟨d, hd, hdw⟩
        refine ⟨d, ?_, hdw⟩
        have : collapseWs false l' ≠ [] := by
          intro hnil
          rw [hnil] at hd
          simp at hd
        rw [getLast?_cons_ne this]
        exact hd

/-- Collapsing preserves a whitespace-free last element. -/
lemma collapseWs_getLast_not_ws {l : List Char} {b : Bool} {c : Char}
    (hl : ∀ d, l.getLast? = some d → isWs d = false)
    (h : (collapseWs b l).getLast? = some c) : isWs c = false := by
  cases hll : l.getLast? with
  | none =>
    rw [List.getLast?_eq_none_iff] at hll
    subst hll
    simp [collapseWs] at h
  | some c₀ =>
    rcases collapseWs_getLast_ex l b c₀ hll (hl c₀ hll) with ⟨d, hd, hdw⟩
    rw [h] at hd
    cases hd
    exact hdw

/-- Every whitespace character in the collapse output is the space it
emitted. -/
lemma collapseWs_ws_eq_space : ∀ (l : List Char) (b : Bool) (c : Char),
    c ∈ collapseWs b l → isWs c = true → c = ' ' := by
  intro l
  induction l with
  | nil => intro b c h _; simp [collapseWs] at h
  | cons a l' ih =>
    intro b c h hc
    rw [collapseWs] at h
    by_cases ha : isWs a
    · rw [if_pos ha] at h
      cases b with
      | true => exact ih true c (by simpa using h) hc
      | false =>
        rw [if_neg (by simp)] at h
        rcases List.mem_cons.mp h with h' | h'
        · exact h'
        · exact ih true c h' hc
    · rw [if_neg ha] at h
      rcases List.mem_cons.mp h with h' | h'
      · subst h'
        rw [hc] at ha
        exact absurd rfl ha
      · exact ih false c h' hc

/-- No two consecutive whitespace characters in the collapse output. -/
lemma collapseWs_chain : ∀ (l : List Char) (b : Bool),
    List.Chain' (fun x y => isWs x = false ∨ isWs y = false) (collapseWs b l) := by
  intro l
  induction l with
  | nil => intro b; simp [collapseWs]
  | cons a l' ih =>
    intro b
    rw [collapseWs]
    by_cases ha : isWs a
    · rw [if_pos ha]
      cases b with
      | true => simpa using ih true
      | false =>
        rw [if_neg (by simp)]
        rw [List.chain'_cons']
        refine ⟨?_, ih true⟩
        intro y hy
        exact Or.inr (collapseWs_head_true_not_ws l' y hy)
    · rw [if_neg ha]
      rw [List.chain'_cons']
      refine ⟨?_, ih false⟩
      intro y _
      exact Or.inl (by simpa using ha)

/-- A list already in collapsed form is a fixpoint of the collapse. -/
lemma collapseWs_fix : ∀ l : List Char,
    (∀ c ∈ l, isWs c = true → c = ' ') →
    List.Chain' (fun x y => isWs x = false ∨ isWs y = false) l →
    collapseWs false l = l ∧
      ((∀ c, l.head? = some c → isWs c = false) → collapseWs true l = l) := by
  intro l
  induction l with
  | nil => intro _ _; exact ⟨rfl, fun _ => rfl⟩
  | cons a l' ih =>
    intro hsp hch
    rw [List.chain'_cons'] at hch
    have ihl := ih (fun c hc hw => hsp c (by simp [hc]) hw) hch.2
    by_cases ha : isWs a
    · have hhead : ∀ c, l'.head? = some c → isWs c = false := by
        intro c hc
        rcases hch.1 c hc with h | h
        · rw [h] at ha
          exact absurd ha (by simp)
        · exact h
      have hsp_a : a = ' ' := hsp a (by simp) ha
      constructor
      · rw [collapseWs, if_pos ha, if_neg (by simp)]
        rw [ihl.2 hhead, hsp_a]
      · intro hcontra
        have := hcontra a rfl
        rw [this] at ha
        exact absurd ha (by simp)
    · constructor
      · rw [collapseWs, if_neg ha, ihl.1]
      · intro _
        rw [collapseWs, if_neg ha, ihl.1]

/-- A list with no whitespace at its head survives `dropWhile`. -/
lemma dropWhile_eq_self_of_head {p : α → Bool} {l : List α}
    (h : ∀ c, l.head? = some c → p c = false) : l.dropWhile p = l := by
  cases l with
  | nil => rfl
  | cons a l' => rw [List.dropWhile_cons, if_neg (by simp [h a rfl])]

/-- A list free of whitespace at both ends is a fixpoint of the trim. -/
lemma trimList_fix {l : List Char}
    (hh : ∀ c, l.head? = some c → isWs c = false)
    (hl : ∀ c, l.getLast? = some c → isWs c = false) : trimList l = l := by
  unfold trimList
  rw [dropWhile_eq_self_of_head hh]
  rw [dropWhile_eq_self_of_head (by
    intro c hc
    rw [List.head?_reverse] at hc
    exact hl c hc)]
  exact List.reverse_reverse l

/-- The normalizer is idempotent. -/
lemma normaliseText_idem (t : String) :
    normaliseText (normaliseText t) = normaliseText t := by
  unfold normaliseText
  set u := collapseWs false (trimList (t.data.map Char.toLower)) with hu
  have hdata : (String.mk u).data = u := rfl
  rw [hdata]
  have hlow : ∀ c ∈ u, c.toLower = c := by
    intro c hc
    rcases mem_collapseWs false _ hc with h | h
    · rw [h]
      exact toLower_space
    · have := mem_trimList h
      rw [List.mem_map] at this
      rcases this with ⟨c₀, _, rfl⟩
      exact toLower_idem c₀
  rw [map_toLower_fix hlow]
  have hhead : ∀ c, u.head? = some c → isWs c = false := by
    intro c hc
    exact collapseWs_head_not_ws (fun d hd => trimList_head_not_ws hd) hc
  have hlast : ∀ c, u.getLast? = some c → isWs c = false := by
    intro c hc
    exact collapseWs_getLast_not_ws (fun d hd => trimList_getLast_not_ws hd) hc
  rw [trimList_fix hhead hlast]
  rw [(collapseWs_fix u (collapseWs_ws_eq_space _ false) (collapseWs_chain _ false)).1]

/-- C6: `normaliseText` is idempotent — for every string `t`,
`normaliseText (normaliseText t) = normaliseText t` — and it lowercases
every character, trims leading and trailing whitespace, and collapses every
maximal whitespace run (including tabs and newlines) into a single ASCII
space: `normaliseText "  HELLO   WORLD  " = "hello world"`, and an empty or
all-whitespace input yields the empty string. -/
theorem normaliseText_idempotent_and_examples :
    (∀ t : String, normaliseText (normaliseText t) = normaliseText t)
    ∧ normaliseText "  HELLO   WORLD  " = "hello world"
    ∧ normaliseText "" = ""
    ∧ normaliseText " \t \n " = ""
    ∧ normaliseText "tabs\there\nand there" = "tabs here and there" :=
  ⟨normaliseText_idem, by decide, by decide, by decide, by decide⟩

/-- C7: for every input string, `extractPhoneNumber` returns the substring
before the first `'@'` with every character that is not an ASCII digit
removed; in particular on the spec's three examples, and empty input yields
empty output. -/
theorem extractPhoneNumber_spec :
    (∀ s : String, extractPhoneNumber s =
      String.mk ((s.data.takeWhile (fun c => c != '@')).filter isDigitCh))
    ∧ extractPhoneNumber "31612345678@s.whatsapp.net" = "31612345678"
    ∧ extractPhoneNumber "+31 6 1234 5678" = "31612345678"
    ∧ extractPhoneNumber "120363123456789012@g.us" = "120363123456789012"
    ∧ extractPhoneNumber "" = "" := by
  refine ⟨fun s => ?_, by decide, by decide, by decide, by decide⟩
  rw [extractPhoneNumber, splitOn_headD_takeWhile]



lemma matchStageText_matches (ro : RegexOracle) (rule : Rule) (message : IncomingMessage)
    (reasons : List String) :
    (matchStageText ro rule message reasons).«matches» = stagePassText ro rule message := by
  unfold matchStageText stagePassText
  cases textFilterOf rule with
  | none => rfl
  | some tf =>
    by_cases h : textStageMatches ro tf message.text <;> simp [h]

lemma matchStageText_fail (ro : RegexOracle) (rule : Rule) (message : IncomingMessage)
    (reasons : List String) (h : stagePassText ro rule message = false) :
    matchStageText ro rule message reasons =
      ⟨false, "text did not match " ++ textModeOf ((textFilterOf rule).getD ⟨none, none⟩)
        ++ " patterns"⟩ := by
  unfold stagePassText at h
  unfold matchStageText
  cases htf : textFilterOf rule with
  | none => rw [htf] at h; cases h
  | some tf =>
    rw [htf] at h
    simp at h
    simp [h]

lemma matchStageSenderNumbers_matches (ro : RegexOracle) (rule : Rule)
    (message : IncomingMessage) (reasons : List String) :
    (matchStageSenderNumbers ro rule message reasons).«matches» =
      (stagePassSenderNumbers rule message && stagePassText ro rule message) := by
  unfold matchStageSenderNumbers stagePassSenderNumbers
  cases senderNumbersFilter rule with
  | none => simp [matchStageText_matches]
  | some ns =>
    by_cases h : ∃ n ∈ ns, extractPhoneNumber n = extractPhoneNumber message.senderId
    · simp [List.any_eq_true, h, matchStageText_matches]
    · simp [List.any_eq_true, h]

lemma matchStageSenderNumbers_pass (ro : RegexOracle) (rule : Rule)
    (message : IncomingMessage) (reasons : List String)
    (h : stagePassSenderNumbers rule message = true) :
    ∃ rs, matchStageSenderNumbers ro rule message reasons = matchStageText ro rule message rs := by
  unfold stagePassSenderNumbers at h
  unfold matchStageSenderNumbers
  cases hf : senderNumbersFilter rule with
  | none => exact ⟨reasons, rfl⟩
  | some ns =>
    rw [hf] at h
    simp at h
    exact ⟨reasons ++ ["senderNumber matched"], by simp [List.any_eq_true, h]⟩

lemma matchStageSenderNumbers_fail (ro : RegexOracle) (rule : Rule)
    (message : IncomingMessage) (reasons : List String)
    (h : stagePassSenderNumbers rule message = false) :
    matchStageSenderNumbers ro rule message reasons =
      ⟨false, "senderPhone " ++ extractPhoneNumber message.senderId ++ " not in allowed list"⟩ := by
  unfold stagePassSenderNumbers at h
  unfold matchStageSenderNumbers
  cases hf : senderNumbersFilter rule with
  | none => rw [hf] at h; cases h
  | some ns =>
    rw [hf] at h
    simp at h
    simp only [List.any_eq_true]
    rw [if_neg]
    rintro ⟨x, hx, heq⟩
    exact absurd (beq_iff_eq.mp heq) (h x hx)

lemma matchStageSenderIds_matches (ro : RegexOracle) (rule : Rule)
    (message : IncomingMessage) (reasons : List String) :
    (matchStageSenderIds ro rule message reasons).«matches» =
      (stagePassSenderIds rule message && stagePassSenderNumbers rule message &&
        stagePassText ro rule message) := by
  unfold matchStageSenderIds stagePassSenderIds
  cases senderIdsFilter rule with
  | none => simp [matchStageSenderNumbers_matches, Bool.and_assoc]
  | some ids =>
    by_cases h : message.senderId ∈ ids
    · simp [h, matchStageSenderNumbers_matches, Bool.and_assoc]
    · simp [h]

lemma matchStageSenderIds_pass (ro : RegexOracle) (rule : Rule)
    (message : IncomingMessage) (reasons : List String)
    (h : stagePassSenderIds rule message = true) :
    ∃ rs, matchStageSenderIds ro rule message reasons =
      matchStageSenderNumbers ro rule message rs := by
  unfold stagePassSenderIds at h
  unfold matchStageSenderIds
  cases hf : senderIdsFilter rule with
  | none => exact ⟨reasons, rfl⟩
  | some ids =>
    rw [hf] at h
    simp at h
    exact ⟨reasons ++ ["senderId matched"], by simp [h]⟩

lemma matchStageSenderIds_fail (ro : RegexOracle) (rule : Rule)
    (message : IncomingMessage) (reasons : List String)
    (h : stagePassSenderIds rule message = false) :
    matchStageSenderIds ro rule message reasons =
      ⟨false, "senderId " ++ message.senderId ++ " not in allowed list"⟩ := by
  unfold stagePassSenderIds at h
  unfold matchStageSenderIds
  cases hf : senderIdsFilter rule with
  | none => rw [hf] at h; cases h
  | some ids =>
    rw [hf] at h
    simp at h
    simp [h]

lemma matchStageChatIds_matches (ro : RegexOracle) (rule : Rule)
    (message : IncomingMessage) (reasons : List String) :
    (matchStageChatIds ro rule message reasons).«matches» =
      (stagePassChatIds rule message && stagePassSenderIds rule message &&
        stagePassSenderNumbers rule message && stagePassText ro rule message) := by
  unfold matchStageChatIds stagePassChatIds
  cases chatIdsFilter rule with
  | none => simp [matchStageSenderIds_matches, Bool.and_assoc]
  | some ids =>
    by_cases h : message.chatId ∈ ids
    · simp [h, matchStageSenderIds_matches, Bool.and_assoc]
    · simp [h]

lemma matchStageChatIds_pass (ro : RegexOracle) (rule : Rule)
    (message : IncomingMessage) (reasons : List String)
    (h : stagePassChatIds rule message = true) :
    ∃ rs, matchStageChatIds ro rule message reasons =
      matchStageSenderIds ro rule message rs := by
  unfold stagePassChatIds at h
  unfold matchStageChatIds
  cases hf : chatIdsFilter rule with
  | none => exact ⟨reasons, rfl⟩
  | some ids =>
    rw [hf] at h
    simp at h
    exact ⟨reasons ++ ["chatId matched"], by simp [h]⟩

lemma matchStageChatIds_fail (ro : RegexOracle) (rule : Rule)
    (message : IncomingMessage) (reasons : List String)
    (h : stagePassChatIds rule message = false) :
    matchStageChatIds ro rule message reasons =
      ⟨false, "chatId " ++ message.chatId ++ " not in allowed list"⟩ := by
  unfold stagePassChatIds at h
  unfold matchStageChatIds
  cases hf : chatIdsFilter rule with
  | none => rw [hf] at h; cases h
  | some ids =>
    rw [hf] at h
    simp at h
    simp [h]

lemma matchStageChatType_matches (ro : RegexOracle) (rule : Rule)
    (message : IncomingMessage) (reasons : List String) :
    (matchStageChatType ro rule message reasons).«matches» =
      (stagePassChatType rule message && stagePassChatIds rule message &&
        stagePassSenderIds rule message && stagePassSenderNumbers rule message &&
        stagePassText ro rule message) := by
  unfold matchStageChatType stagePassChatType
  cases chatTypeFilter rule with
  | none => simp [matchStageChatIds_matches, Bool.and_assoc]
  | some t =>
    by_cases h : t = message.chatType
    · simp [h, matchStageChatIds_matches, Bool.and_assoc]
    · simp [h]

lemma matchStageChatType_pass (ro : RegexOracle) (rule : Rule)
    (message : IncomingMessage) (reasons : List String)
    (h : stagePassChatType rule message = true) :
    ∃ rs, matchStageChatType ro rule message reasons =
      matchStageChatIds ro rule message rs := by
  unfold stagePassChatType at h
  unfold matchStageChatType
  cases hf : chatTypeFilter rule with
  | none => exact ⟨reasons, rfl⟩
  | some t =>
    rw [hf] at h
    simp at h
    exact ⟨reasons ++ ["chatType=" ++ message.chatType], by simp [h]⟩

lemma matchStageChatType_fail (ro : RegexOracle) (rule : Rule)
    (message : IncomingMessage) (reasons : List String)
    (h : stagePassChatType rule message = false) :
    matchStageChatType ro rule message reasons =
      ⟨false, "chatType " ++ message.chatType ++ " ≠ " ++ (chatTypeFilter rule).getD ""⟩ := by
  unfold stagePassChatType at h
  unfold matchStageChatType
  cases hf : chatTypeFilter rule with
  | none => rw [hf] at h; cases h
  | some t =>
    rw [hf] at h
    simp at h
    simp [h]

lemma matchRule_matches_eq (ro : RegexOracle) (rule : Rule) (message : IncomingMessage) :
    (matchRule ro rule message).«matches» =
      (stagePassEvent rule message && stagePassChatType rule message &&
        stagePassChatIds rule message && stagePassSenderIds rule message &&
        stagePassSenderNumbers rule message && stagePassText ro rule message) := by
  unfold matchRule stagePassEvent
  by_cases h : incomingEventOf message ∈ ruleEventsOf rule
  · simp [h, matchStageChatType_matches, Bool.and_assoc]
  · simp [h]

lemma matchRule_fail_event (ro : RegexOracle) (rule : Rule) (message : IncomingMessage)
    (h : stagePassEvent rule message = false) :
    matchRule ro rule message =
      ⟨false, "event " ++ incomingEventOf message ++ " not in [" ++
        String.intercalate ", " (ruleEventsOf rule) ++ "]"⟩ := by
  unfold stagePassEvent at h
  unfold matchRule
  simp at h
  simp [h]

lemma matchRule_pass_event (ro : RegexOracle) (rule : Rule) (message : IncomingMessage)
    (h : stagePassEvent rule message = true) :
    matchRule ro rule message =
      matchStageChatType ro rule message ["event=" ++ incomingEventOf message] := by
  unfold stagePassEvent at h
  unfold matchRule
  simp at h
  simp [h]



/-- C3: for every rule and every incoming message, `matchRule` evaluates
the stages in the fixed order event, chat type, chat ids, sender ids,
sender numbers, text, as a short-circuiting AND: its boolean outcome is the
conjunction of the six stage predicates (so `sender.ids` and
`sender.numbers`, when both configured, must both pass — AND, not OR), and
when a stage fails, the reported reason is that of the FIRST failing stage
in this order. -/
theorem matchRule_fixed_order (ro : RegexOracle) (rule : Rule) (message : IncomingMessage) :
    ((matchRule ro rule message).«matches» =
      (stagePassEvent rule message && stagePassChatType rule message &&
        stagePassChatIds rule message && stagePassSenderIds rule message &&
        stagePassSenderNumbers rule message && stagePassText ro rule message))
    ∧ (stagePassEvent rule message = false →
        (matchRule ro rule message).reason =
          "event " ++ incomingEventOf message ++ " not in [" ++
            String.intercalate ", " (ruleEventsOf rule) ++ "]")
    ∧ (stagePassEvent rule message = true → stagePassChatType rule message = false →
        (matchRule ro rule message).reason =
          "chatType " ++ message.chatType ++ " ≠ " ++ (chatTypeFilter rule).getD "")
    ∧ (stagePassEvent rule message = true → stagePassChatType rule message = true →
        stagePassChatIds rule message = false →
        (matchRule ro rule message).reason =
          "chatId " ++ message.chatId ++ " not in allowed list")
    ∧ (stagePassEvent rule message = true → stagePassChatType rule message = true →
        stagePassChatIds rule message = true → stagePassSenderIds rule message = false →
        (matchRule ro rule message).reason =
          "senderId " ++ message.senderId ++ " not in allowed list")
    ∧ (stagePassEvent rule message = true → stagePassChatType rule message = true →
        stagePassChatIds rule message = true → stagePassSenderIds rule message = true →
        stagePassSenderNumbers rule message = false →
        (matchRule ro rule message).reason =
          "senderPhone " ++ extractPhoneNumber message.senderId ++ " not in allowed list")
    ∧ (stagePassEvent rule message = true → stagePassChatType rule message = true →
        stagePassChatIds rule message = true → stagePassSenderIds rule message = true →
        stagePassSenderNumbers rule message = true → stagePassText ro rule message = false →
        (matchRule ro rule message).reason =
          "text did not match " ++ textModeOf ((textFilterOf rule).getD ⟨none, none⟩)
            ++ " patterns") := by
  refine ⟨matchRule_matches_eq ro rule message, ?_, ?_, ?_, ?_, ?_, ?_⟩
  · intro h1
    rw [matchRule_fail_event ro rule message h1]
  · intro h1 h2
    rw [matchRule_pass_event ro rule message h1]
    rw [matchStageChatType_fail ro rule message _ h2]
  · intro h1 h2 h3
    rw [matchRule_pass_event ro rule message h1]
    obtain ⟨rs, hrw⟩ := matchStageChatType_pass ro rule message _ h2
    rw [hrw, matchStageChatIds_fail ro rule message _ h3]
  · intro h1 h2 h3 h4
    rw [matchRule_pass_event ro rule message h1]
    obtain ⟨rs, hrw⟩ := matchStageChatType_pass ro rule message _ h2
    rw [hrw]
    obtain ⟨rs2, hrw2⟩ := matchStageChatIds_pass ro rule message _ h3
    rw [hrw2, matchStageSenderIds_fail ro rule message _ h4]
  · intro h1 h2 h3 h4 h5
    rw [matchRule_pass_event ro rule message h1]
    obtain ⟨rs, hrw⟩ := matchStageChatType_pass ro rule message _ h2
    rw [hrw]
    obtain ⟨rs2, hrw2⟩ := matchStageChatIds_pass ro rule message _ h3
    rw [hrw2]
    obtain ⟨rs3, hrw3⟩ := matchStageSenderIds_pass ro rule message _ h4
    rw [hrw3, matchStageSenderNumbers_fail ro rule message _ h5]
  · intro h1 h2 h3 h4 h5 h6
    rw [matchRule_pass_event ro rule message h1]
    obtain ⟨rs, hrw⟩ := matchStageChatType_pass ro rule message _ h2
    rw [hrw]
    obtain ⟨rs2, hrw2⟩ := matchStageChatIds_pass ro rule message _ h3
    rw [hrw2]
    obtain ⟨rs3, hrw3⟩ := matchStageSenderIds_pass ro rule message _ h4
    rw [hrw3]
    obtain ⟨rs4, hrw4⟩ := matchStageSenderNumbers_pass ro rule message _ h5
    rw [hrw4, matchStageText_fail ro rule message _ h6]

/-- Witness for C3 at a concrete input: `exRuleDirect` constrains both the
chat type and the text, and against the group message `exMsg` evaluation
stops at the chat-type stage. -/
theorem matchRule_fixed_order_witness :
    (matchRule noRegex exRuleDirect exMsg).«matches» = false
    ∧ (matchRule noRegex exRuleDirect exMsg).reason = "chatType group ≠ direct" := by
  constructor
  · rw [(matchRule_fixed_order noRegex exRuleDirect exMsg).1]
    decide
  · rw [(matchRule_fixed_order noRegex exRuleDirect exMsg).2.2.1 (by decide) (by decide)]
    decide

lemma textFilterOf_some {rule : Rule} {tf : TextFilter} {ps : List String}
    (htext : rule.«match».text = some tf) (hps : tf.patterns = some ps) (hne : ps ≠ []) :
    textFilterOf rule = some tf := by
  unfold textFilterOf
  rw [htext]
  show (match tf.patterns with
    | none => none
    | some ps => if ps.length > 0 then some tf else none) = some tf
  rw [hps]
  show (if ps.length > 0 then some tf else none) = some tf
  rw [if_pos (List.length_pos.mpr hne)]

/-- C5: in text mode `regex`, the matcher tests each pattern against the
raw, unnormalized message text (the compiled predicate receives `msgText`
itself, not `normaliseText msgText`), matching if any pattern succeeds; a
pattern that fails to compile is treated as never matching that pattern
only, and — the embedding being a total function — `matchRule` never
throws, for every pattern list and message text. -/
theorem regex_mode_spec :
    (∀ (ro : RegexOracle) (tf : TextFilter) (ps : List String) (msgText : String),
      tf.mode = some "regex" → tf.patterns = some ps →
      textStageMatches ro tf msgText =
        (ps.any fun p =>
          match ro.compileI p with
          | some test => test msgText
          | none => false))
    ∧ (∀ (ro : RegexOracle) (rule : Rule) (message : IncomingMessage)
        (tf : TextFilter) (ps : List String),
        rule.«match».text = some tf → tf.mode = some "regex" →
        tf.patterns = some ps → ps ≠ [] →
        (∀ p ∈ ps, ro.compileI p = none) →
        (matchRule ro rule message).«matches» = false) := by
  have part1 : ∀ (ro : RegexOracle) (tf : TextFilter) (ps : List String) (msgText : String),
      tf.mode = some "regex" → tf.patterns = some ps →
      textStageMatches ro tf msgText =
        (ps.any fun p =>
          match ro.compileI p with
          | some test => test msgText
          | none => false) := by
    intro ro tf ps msgText hmode hps
    unfold textStageMatches textModeOf jsOrStr
    rw [hmode, hps]
    simp
  refine ⟨part1, ?_⟩
  intro ro rule message tf ps htext hmode hps hne hnone
  rw [matchRule_matches_eq]
  have htf := textFilterOf_some htext hps hne
  have hpass : stagePassText ro rule message = false := by
    unfold stagePassText
    rw [htf]
    show textStageMatches ro tf message.text = false
    rw [part1 ro tf ps message.text hmode hps]
    rw [List.any_eq_false]
    intro p hp
    simp [hnone p hp]
  rw [hpass]
  simp

/-- Witness for C5 at concrete inputs. -/
theorem regex_mode_spec_witness :
    textStageMatches litRegex tfRegex "say goodnight please" = false
    ∧ (matchRule noRegex exRuleRegex exMsg).«matches» = false := by
  constructor
  · rw [(regex_mode_spec).1 litRegex tfRegex ["good(night|morning)"] "say goodnight please" rfl rfl]
    decide
  · exact (regex_mode_spec).2 noRegex exRuleRegex exMsg tfRegex ["good(night|morning)"]
      rfl rfl rfl (by decide) (fun p _ => rfl)



namespace RuleEngine

lemma runRules_nil (ro : RegexOracle) (o : ExtOracle) (cfg : AppConfig)
    (message : IncomingMessage) (dbid : Option Nat) (now : Int) (cds : List CooldownEntry) :
    runRules ro o cfg message dbid now [] cds = ⟨[], [], cds, [], []⟩ := rfl

lemma runRules_cons_cooldown (ro : RegexOracle) (o : ExtOracle) (cfg : AppConfig)
    (message : IncomingMessage) (dbid : Option Nat) (now : Int) (rule : Rule)
    (rest : List Rule) (cds : List CooldownEntry)
    (h : (isOnCooldown now cds rule.id message.chatId).1 = true) :
    runRules ro o cfg message dbid now (rule :: rest) cds =
      consEval (cooldownEvalEntry rule)
        (runRules ro o cfg message dbid now rest (purgeCooldowns now cds)) := by
  rw [runRules]
  simp only [h, if_true]
  rfl

lemma runRules_cons_nomatch (ro : RegexOracle) (o : ExtOracle) (cfg : AppConfig)
    (message : IncomingMessage) (dbid : Option Nat) (now : Int) (rule : Rule)
    (rest : List Rule) (cds : List CooldownEntry)
    (hcd : (isOnCooldown now cds rule.id message.chatId).1 = false)
    (hm : (matchRule ro rule message).«matches» = false) :
    runRules ro o cfg message dbid now (rule :: rest) cds =
      consEval (noMatchEvalEntry rule (matchRule ro rule message))
        (runRules ro o cfg message dbid now rest (purgeCooldowns now cds)) := by
  rw [runRules]
  simp only [hcd, Bool.false_eq_true, if_false, hm]
  rfl

lemma runRules_cons_matched_stop (ro : RegexOracle) (o : ExtOracle) (cfg : AppConfig)
    (message : IncomingMessage) (dbid : Option Nat) (now : Int) (rule : Rule)
    (rest : List Rule) (cds : List CooldownEntry)
    (hcd : (isOnCooldown now cds rule.id message.chatId).1 = false)
    (hm : (matchRule ro rule message).«matches» = true)
    (hstop : stopOnMatch rule = true) :
    runRules ro o cfg message dbid now (rule :: rest) cds =
      ⟨[matchedEvalEntry rule (matchRule ro rule message)],
        (executeActions o cfg rule message).1.map (toExecutedAction rule),
        cooldownsAfterFire now rule message cds,
        [mkRuleFire rule message dbid (executeActions o cfg rule message).1],
        (executeActions o cfg rule message).2⟩ := by
  rw [runRules]
  simp only [hcd, Bool.false_eq_true, if_false, hm, if_true, hstop]
  rfl

lemma runRules_cons_matched_continue (ro : RegexOracle) (o : ExtOracle) (cfg : AppConfig)
    (message : IncomingMessage) (dbid : Option Nat) (now : Int) (rule : Rule)
    (rest : List Rule) (cds : List CooldownEntry)
    (hcd : (isOnCooldown now cds rule.id message.chatId).1 = false)
    (hm : (matchRule ro rule message).«matches» = true)
    (hstop : stopOnMatch rule = false) :
    runRules ro o cfg message dbid now (rule :: rest) cds =
      (let tail := runRules ro o cfg message dbid now rest
        (cooldownsAfterFire now rule message cds)
       ⟨matchedEvalEntry rule (matchRule ro rule message) :: tail.evaluated,
        (executeActions o cfg rule message).1.map (toExecutedAction rule) ++ tail.executed,
        tail.cooldowns,
        mkRuleFire rule message dbid (executeActions o cfg rule message).1 :: tail.fires,
        (executeActions o cfg rule message).2 ++ tail.calls⟩) := by
  rw [runRules]
  simp only [hcd, Bool.false_eq_true, if_false, hm, if_true, hstop]
  rfl

lemma runRules_stop_last (ro : RegexOracle) (o : ExtOracle) (cfg : AppConfig)
    (message : IncomingMessage) (dbid : Option Nat) (now : Int) :
    ∀ (rules : List Rule) (cds : List CooldownEntry),
      ∀ e ∈ (runRules ro o cfg message dbid now rules cds).evaluated,
        e.matched = true → e.stoppedChain = some true →
        (runRules ro o cfg message dbid now rules cds).evaluated.getLast? = some e := by
  intro rules
  induction rules with
  | nil => intro cds e he; simp [runRules_nil] at he
  | cons rule rest ih =>
    intro cds e he hm hs
    by_cases hcd : (isOnCooldown now cds rule.id message.chatId).1
    · rw [runRules_cons_cooldown ro o cfg message dbid now rule rest cds hcd] at he ⊢
      rcases List.mem_cons.mp he with h | h
      · subst h
        cases hm
      · have tail_ne : (runRules ro o cfg message dbid now rest
            (purgeCooldowns now cds)).evaluated ≠ [] := List.ne_nil_of_mem h
        rw [consEval, getLast?_cons_ne tail_ne]
        exact ih _ e h hm hs
    · have hcd' : (isOnCooldown now cds rule.id message.chatId).1 = false := by
        simpa using hcd
      by_cases hmatch : (matchRule ro rule message).«matches»
      · by_cases hstop : stopOnMatch rule
        · rw [runRules_cons_matched_stop ro o cfg message dbid now rule rest cds hcd' hmatch hstop] at he ⊢
          simp at he
          subst he
          rfl
        · have hstop' : stopOnMatch rule = false := by simpa using hstop
          rw [runRules_cons_matched_continue ro o cfg message dbid now rule rest cds hcd' hmatch hstop'] at he ⊢
          simp only at he ⊢
          rcases List.mem_cons.mp he with h | h
          · subst h
            rw [matchedEvalEntry] at hs
            simp [hstop'] at hs
          · have tail_ne : (runRules ro o cfg message dbid now rest
              (cooldownsAfterFire now rule message cds)).evaluated ≠ [] := List.ne_nil_of_mem h
            rw [getLast?_cons_ne tail_ne]
            exact ih _ e h hm hs
      · have hmatch' : (matchRule ro rule message).«matches» = false := by simpa using hmatch
        rw [runRules_cons_nomatch ro o cfg message dbid now rule rest cds hcd' hmatch'] at he ⊢
        rcases List.mem_cons.mp he with h | h
        · subst h
          cases hm
        · have tail_ne : (runRules ro o cfg message dbid now rest
            (purgeCooldowns now cds)).evaluated ≠ [] := List.ne_nil_of_mem h
          rw [consEval, getLast?_cons_ne tail_ne]
          exact ih _ e h hm hs

lemma runAction_skip (o : ExtOracle) (cfg : AppConfig) (message : IncomingMessage)
    {action : RuleAction} (h : actionEligible action = false) :
    runAction o cfg message action = (none, []) := by
  unfold actionEligible at h
  simp only [Bool.or_eq_false_iff] at h
  unfold runAction
  rw [if_neg (by simp [h.1]), if_neg (by simp [h.2])]

lemma runAction_type (o : ExtOracle) (cfg : AppConfig) (message : IncomingMessage)
    {action : RuleAction} (h : actionEligible action = true) :
    ∃ res calls, runAction o cfg message action = (some res, calls) ∧
      res.type = action.type := by
  unfold actionEligible at h
  rw [Bool.or_eq_true_iff] at h
  unfold runAction
  rcases h with h | h
  · rw [if_pos h]
    rw [Bool.and_eq_true] at h
    refine ⟨_, _, rfl, ?_⟩
    exact (beq_iff_eq.mp h.1).symm
  · by_cases hha : (action.type == "ha_service" && jsTruthyStr action.service) = true
    · rw [if_pos hha]
      rw [Bool.and_eq_true] at hha
      refine ⟨_, _, rfl, ?_⟩
      exact (beq_iff_eq.mp hha.1).symm
    · rw [if_neg hha, if_pos h]
      rw [Bool.and_eq_true] at h
      cases hsend : o.sendText cfg.instanceName message.chatId (action.text.getD "") with
      | ok u =>
        refine ⟨_, _, rfl, ?_⟩
        exact (beq_iff_eq.mp h.1).symm
      | error e =>
        exact ⟨_, _, rfl, rfl⟩

lemma executeActionsList_types (o : ExtOracle) (cfg : AppConfig)
    (message : IncomingMessage) :
    ∀ actions : List RuleAction,
      (executeActionsList o cfg message actions).1.map (·.type) =
        (actions.filter actionEligible).map (·.type) := by
  intro actions
  induction actions with
  | nil => rfl
  | cons action rest ih =>
    rw [executeActionsList, List.filter_cons]
    by_cases h : actionEligible action
    · rcases runAction_type o cfg message h with ⟨res, calls, hrun, htype⟩
      rw [hrun]
      simp only [h, if_true, Option.toList, List.map_cons, List.singleton_append,
        List.map_cons]
      rw [htype, ih]
    · have h' : actionEligible action = false := by simpa using h
      rw [runAction_skip o cfg message h']
      simp only [h', Bool.false_eq_true, if_false, Option.toList, List.nil_append]
      exact ih

lemma executeActionsList_all_skipped (o : ExtOracle) (cfg : AppConfig)
    (message : IncomingMessage) :
    ∀ actions : List RuleAction,
      (∀ a ∈ actions, actionEligible a = false) →
      executeActionsList o cfg message actions = ([], []) := by
  intro actions
  induction actions with
  | nil => intro _; rfl
  | cons action rest ih =>
    intro h
    rw [executeActionsList, runAction_skip o cfg message (h action (by simp))]
    rw [ih fun a ha => h a (by simp [ha])]
    rfl

end RuleEngine

namespace HAClient

lemma callService_trace_mem (o : ExtOracle) (service : String)
    (target : Option EntityTarget) (data : Option DataMap) (allowed : List String)
    (hne : allowed ≠ []) :
    ∀ call ∈ (callService o service target data (some allowed)).2,
      call.service ∈ allowed := by
  intro call hcall
  unfold callService at hcall
  simp only [Option.getD_some] at hcall
  by_cases hmem : allowed.contains service
  · rw [if_neg (by rw [hmem]; simp)] at hcall
    have hserv : service ∈ allowed := by simpa using hmem
    unfold dispatchService at hcall
    cases hpost : o.haPost (haDomain service) (haServiceName service) (haEntity target)
        (data.getD []) with
    | ok u =>
      rw [hpost] at hcall
      simp at hcall
      rw [hcall]
      exact hserv
    | error e =>
      rw [hpost] at hcall
      simp at hcall
      rw [hcall]
      exact hserv
  · have hmem' : allowed.contains service = false := by simpa using hmem
    rw [if_pos (by rw [hmem']; simp [List.length_pos.mpr hne])] at hcall
    simp at hcall

end HAClient

namespace RuleEngine

lemma executeActionsList_ha_allowed (o : ExtOracle) (cfg : AppConfig)
    (message : IncomingMessage) (hne : cfg.allowedServices ≠ []) :
    ∀ (actions : List RuleAction) (hc : HACall),
      ExtCall.ha hc ∈ (executeActionsList o cfg message actions).2 →
      hc.service ∈ cfg.allowedServices := by
  intro actions
  induction actions with
  | nil => intro hc h; simp [executeActionsList] at h
  | cons action rest ih =>
    intro hc h
    rw [executeActionsList] at h
    rcases List.mem_append.mp h with h | h
    · unfold runAction at h
      by_cases h1 : (action.type == "ha_service" && jsTruthyStr action.service) = true
      · rw [if_pos h1] at h
        simp only [List.mem_map] at h
        rcases h with ⟨call, hcall, heq⟩
        obtain rfl : call = hc := by injection heq
        exact HAClient.callService_trace_mem o (action.service.getD "") action.target
          action.data cfg.allowedServices hne call hcall
      · rw [if_neg h1] at h
        by_cases h2 : (action.type == "reply_whatsapp" && jsTruthyStr action.text) = true
        · rw [if_pos h2] at h
          cases hsend : o.sendText cfg.instanceName message.chatId (action.text.getD "") with
          | ok u =>
            rw [hsend] at h
            simp at h
          | error e =>
            rw [hsend] at h
            simp at h
        · rw [if_neg h2] at h
          simp at h
    · exact ih hc h

end RuleEngine

/-- C1 (amended): for every `ha_service` action, when the caller-supplied
allowlist is NON-EMPTY and the service identifier does not appear in it,
the outcome is `success:false` with the allowlist-violation error and no
external call is performed; consequently every HA call the Action Executor
performs under a non-empty allowlist is to an allowlisted service.  (The
original claim extended this to the empty allowlist; the code skips the
check entirely for an empty or absent allowlist — see the
counterexample.) -/
theorem callService_allowlist_enforced :
    (∀ (o : ExtOracle) (service : String) (target : Option EntityTarget)
       (data : Option DataMap) (allowed : List String),
      allowed ≠ [] → service ∉ allowed →
      HAClient.callService o service target data (some allowed) =
        (⟨false, some (HAClient.allowlistError service allowed)⟩, []))
    ∧ (∀ (o : ExtOracle) (cfg : AppConfig) (rule : Rule) (message : IncomingMessage),
        cfg.allowedServices ≠ [] →
        ∀ hc : HACall,
          ExtCall.ha hc ∈ (RuleEngine.executeActions o cfg rule message).2 →
          hc.service ∈ cfg.allowedServices) := by
  constructor
  · intro o service target data allowed hne hmem
    unfold HAClient.callService
    simp only [Option.getD_some]
    have hmem' : allowed.contains service = false := by simpa using hmem
    rw [if_pos (by rw [hmem']; simp [List.length_pos.mpr hne])]
  · intro o cfg rule message hne hc h
    exact RuleEngine.executeActionsList_ha_allowed o cfg message hne rule.actions hc h

/-- Witness for C1's amended theorem at concrete inputs. -/
theorem callService_allowlist_enforced_witness :
    HAClient.callService okOracle "light.turn_on" none none (some ["script.turn_on"]) =
      (⟨false, some "Service 'light.turn_on' is not in the allowed list. Allowed: script.turn_on"⟩, [])
    ∧ "script.turn_on" ∈ cfg0.allowedServices := by
  constructor
  · exact (callService_allowlist_enforced).1 okOracle "light.turn_on" none none
      ["script.turn_on"] (by decide) (by decide)
  · exact (callService_allowlist_enforced).2 okOracle cfg0 exRuleHa exMsg (by decide)
      ⟨"script.turn_on", "script", some "turn_on", none, []⟩ (by decide)

/-- C1 counterexample: with an EMPTY caller-supplied allowlist the
allowlist check is skipped — the call succeeds and the external POST is
performed, contradicting the claim's "for every allowlist, including an
empty one". -/
theorem callService_empty_allowlist_cex :
    (HAClient.callService okOracle "light.turn_on" none none (some [])).1 = ⟨true, none⟩
    ∧ (HAClient.callService okOracle "light.turn_on" none none (some [])).2 =
        [⟨"light.turn_on", "light", some "turn_on", none, []⟩] := by
  decide



/-- C4: `stop_on_match` defaults to true when absent; a rule matched with
`stoppedChain = true` is always the LAST evaluation entry of a
`processMessage` run (no further rules are evaluated); and on the claim's
concrete scenario — two enabled catch-all rules at priorities 50 and 100,
`stop_on_match` left at its default on the first — the result reports
exactly one matched rule and zero actions from the second rule. -/
theorem stop_on_match_spec :
    (∀ rule : Rule, rule.stop_on_match = none → RuleEngine.stopOnMatch rule = true)
    ∧ (∀ (ro : RegexOracle) (o : ExtOracle) (cfg : AppConfig) (message : IncomingMessage)
        (dbid : Option Nat) (now : Int) (rules : List Rule) (cds : List CooldownEntry),
        ∀ e ∈ (RuleEngine.runRules ro o cfg message dbid now rules cds).evaluated,
          e.matched = true → e.stoppedChain = some true →
          (RuleEngine.runRules ro o cfg message dbid now rules cds).evaluated.getLast? = some e)
    ∧ (RuleEngine.processMessage noRegex okOracle cfg0
        (some ⟨1, [exRuleFirst, exRuleSecond]⟩) exMsg none 0 []).evaluated.countP (·.matched) = 1
    ∧ (RuleEngine.processMessage noRegex okOracle cfg0
        (some ⟨1, [exRuleFirst, exRuleSecond]⟩) exMsg none 0 []).executed.filter
          (fun a => a.ruleId == "second") = [] := by
  refine ⟨?_, ?_, by decide, by decide⟩
  · intro rule h
    rw [RuleEngine.stopOnMatch, h]
    rfl
  · intro ro o cfg message dbid now rules cds
    exact RuleEngine.runRules_stop_last ro o cfg message dbid now rules cds

/-- Witness for C4 at a concrete input. -/
theorem stop_on_match_spec_witness :
    RuleEngine.stopOnMatch exRuleFirst = true
    ∧ (RuleEngine.runRules noRegex okOracle cfg0 exMsg none 0 [exRuleFirst, exRuleSecond] []).evaluated.getLast?
        = some { id := "first", name := "First", matched := true,
                 reason := "event=MESSAGES_UPSERT", stoppedChain := some true } := by
  constructor
  · exact (stop_on_match_spec).1 exRuleFirst rfl
  · exact (stop_on_match_spec).2.1 noRegex okOracle cfg0 exMsg none 0 [exRuleFirst, exRuleSecond] []
      { id := "first", name := "First", matched := true,
        reason := "event=MESSAGES_UPSERT", stoppedChain := some true }
      (by decide) (by decide) (by decide)

/-- C9: a rule on cooldown for `(rule.id, message.chatId)` is never matched
or executed — it yields the entry `{matched:false, reason:"on cooldown",
skippedCooldown:true}` and iteration continues with the next rule; the
lookup runs on the purged table (expired rows deleted first) and hits
exactly the live `(ruleId, scopeKey)` rows; and in the concrete 60-second
scenario the rule fires at t=0, is skipped at t=30 for the same chat, and
is eligible again at t=60. -/
theorem cooldown_spec :
    (∀ (ro : RegexOracle) (o : ExtOracle) (cfg : AppConfig) (message : IncomingMessage)
       (dbid : Option Nat) (now : Int) (rule : Rule) (rest : List Rule)
       (cds : List CooldownEntry),
      (RuleEngine.isOnCooldown now cds rule.id message.chatId).1 = true →
      RuleEngine.runRules ro o cfg message dbid now (rule :: rest) cds =
        consEval (RuleEngine.cooldownEvalEntry rule)
          (RuleEngine.runRules ro o cfg message dbid now rest (RuleEngine.purgeCooldowns now cds)))
    ∧ (∀ rule : Rule, RuleEngine.cooldownEvalEntry rule =
        { id := rule.id, name := rule.name, matched := false, reason := "on cooldown",
          skippedCooldown := some true, stoppedChain := none })
    ∧ (∀ (now : Int) (cds : List CooldownEntry) (ruleId scopeKey : String),
        (RuleEngine.isOnCooldown now cds ruleId scopeKey).2 = RuleEngine.purgeCooldowns now cds
        ∧ ((RuleEngine.isOnCooldown now cds ruleId scopeKey).1 = true ↔
            ∃ e ∈ RuleEngine.purgeCooldowns now cds,
              e.rule_id = ruleId ∧ e.scope_key = scopeKey ∧ now < e.expires_at))
    ∧ (RuleEngine.processMessage noRegex okOracle cfg0 (some ⟨1, [exRuleCooldown]⟩)
        exMsg none 0 []).cooldowns = [⟨"cd", "120363123456789012@g.us", 60⟩]
    ∧ (RuleEngine.processMessage noRegex okOracle cfg0 (some ⟨1, [exRuleCooldown]⟩)
        exMsg none 30 [⟨"cd", "120363123456789012@g.us", 60⟩]).evaluated =
        [{ id := "cd", name := "Cooldown", matched := false, reason := "on cooldown",
           skippedCooldown := some true }]
    ∧ (RuleEngine.processMessage noRegex okOracle cfg0 (some ⟨1, [exRuleCooldown]⟩)
        exMsg none 60 [⟨"cd", "120363123456789012@g.us", 60⟩]).evaluated.map (·.matched) =
        [true] := by
  refine ⟨?_, fun rule => rfl, ?_, by decide, by decide, by decide⟩
  · intro ro o cfg message dbid now rule rest cds h
    exact RuleEngine.runRules_cons_cooldown ro o cfg message dbid now rule rest cds h
  · intro now cds ruleId scopeKey
    refine ⟨rfl, ?_⟩
    rw [RuleEngine.isOnCooldown]
    simp only [RuleEngine.cooldownHit, List.any_eq_true]
    constructor
    · rintro ⟨e, he, hp⟩
      simp at hp
      exact ⟨e, he, hp.1.1, hp.1.2, hp.2⟩
    · rintro ⟨e, he, h1, h2, h3⟩
      exact ⟨e, he, by simp [h1, h2, h3]⟩

/-- Witness for C9's general cooldown-skip step at a concrete input. -/
theorem cooldown_spec_witness :
    RuleEngine.runRules noRegex okOracle cfg0 exMsg none 30 [exRuleCooldown]
        [⟨"cd", "120363123456789012@g.us", 60⟩] =
      consEval (RuleEngine.cooldownEvalEntry exRuleCooldown)
        (RuleEngine.runRules noRegex okOracle cfg0 exMsg none 30 []
          (RuleEngine.purgeCooldowns 30 [⟨"cd", "120363123456789012@g.us", 60⟩])) :=
  (cooldown_spec).1 noRegex okOracle cfg0 exMsg none 30 exRuleCooldown []
    [⟨"cd", "120363123456789012@g.us", 60⟩] (by decide)

/-- C10: the Action Executor emits an outcome entry exactly for actions of
a known type whose required field is present and non-empty — all other
actions are silently skipped, so the outcome list can be shorter than the
rule's action list (concretely 1 of 3 for `exRuleMixed`); and a matched
rule all of whose actions are skipped is logged as a RuleFire with an
empty outcome list and `success = true`. -/
theorem executor_skip_spec :
    (∀ (o : ExtOracle) (cfg : AppConfig) (message : IncomingMessage)
       (actions : List RuleAction),
      (RuleEngine.executeActionsList o cfg message actions).1.map (·.type) =
        (actions.filter RuleEngine.actionEligible).map (·.type))
    ∧ (∀ (o : ExtOracle) (cfg : AppConfig) (rule : Rule) (message : IncomingMessage)
        (dbid : Option Nat),
        rule.actions.filter RuleEngine.actionEligible = [] →
        RuleEngine.executeActions o cfg rule message = ([], [])
        ∧ RuleEngine.mkRuleFire rule message dbid
            (RuleEngine.executeActions o cfg rule message).1 =
          { rule_id := rule.id, rule_name := rule.name, message_id := dbid,
            chat_id := message.chatId, sender_id := message.senderId,
            matched_text := jsSubstring message.text 500, actions_executed := [],
            success := true, error_message := none,
            event_type := jsOrStr message.event "MESSAGES_UPSERT" })
    ∧ (RuleEngine.executeActions okOracle cfg0 exRuleMixed exMsg).1.map (·.type) =
        ["reply_whatsapp"]
    ∧ exRuleMixed.actions.length = 3
    ∧ (RuleEngine.processMessage noRegex okOracle cfg0 (some ⟨1, [exRuleAllSkipped]⟩)
        exMsg none 0 []).fires =
        [{ rule_id := "skip", rule_name := "Skip", message_id := none,
           chat_id := "120363123456789012@g.us",
           sender_id := "31612345678@s.whatsapp.net",
           matched_text := "say goodnight please", actions_executed := [],
           success := true, error_message := none,
           event_type := "MESSAGES_UPSERT" }]
    ∧ (RuleEngine.processMessage noRegex okOracle cfg0 (some ⟨1, [exRuleAllSkipped]⟩)
        exMsg none 0 []).evaluated.map (·.matched) = [true] := by
  refine ⟨fun o cfg message => RuleEngine.executeActionsList_types o cfg message,
    ?_, by decide, by decide, by decide, by decide⟩
  intro o cfg rule message dbid hfilter
  have hall : ∀ a ∈ rule.actions, RuleEngine.actionEligible a = false := by
    intro a ha
    have h := List.filter_eq_nil_iff.mp hfilter a ha
    simpa using h
  have hexe : RuleEngine.executeActions o cfg rule message = ([], []) :=
    RuleEngine.executeActionsList_all_skipped o cfg message rule.actions hall
  refine ⟨hexe, ?_⟩
  rw [hexe]
  rfl

/-- Witness for C10's all-skipped conjunct at a concrete input. -/
theorem executor_skip_spec_witness :
    RuleEngine.executeActions okOracle cfg0 exRuleAllSkipped exMsg = ([], [])
    ∧ RuleEngine.mkRuleFire exRuleAllSkipped exMsg none
        (RuleEngine.executeActions okOracle cfg0 exRuleAllSkipped exMsg).1 =
      { rule_id := "skip", rule_name := "Skip", message_id := none,
        chat_id := "120363123456789012@g.us",
        sender_id := "31612345678@s.whatsapp.net",
        matched_text := "say goodnight please", actions_executed := [],
        success := true, error_message := none,
        event_type := "MESSAGES_UPSERT" } :=
  (executor_skip_spec).2.1 okOracle cfg0 exRuleAllSkipped exMsg none (by decide)

/-- C2 (code-bug demonstration): `(a.priority || 100)` treats the falsy
priority `0` like an absent priority — a rule with priority 0 gets
effective priority 100 and is evaluated AFTER a rule with priority 50,
both in `sortRules` and in the order `processMessage` reports. -/
theorem priority_zero_demoted :
    RuleEngine.priorityOf exRuleZero = 100
    ∧ RuleEngine.priorityOf { exRuleZero with priority := none } = 100
    ∧ (RuleEngine.sortRules [exRuleZero, exRuleFifty]).map (·.id) = ["b", "a"]
    ∧ (RuleEngine.processMessage noRegex okOracle cfg0 (some ⟨1, [exRuleZero, exRuleFifty]⟩)
        exMsg none 0 []).evaluated.map (·.id) = ["b", "a"] := by
  decide

/-- C8 (code-bug demonstration): on a parse failure `validateYaml` returns
`valid:false` with exactly one error entry carrying the syntax-error
message and `ruleCount = 0`, and a parser position on line `l ≥ 1`
(0-based) yields the 1-based line `l + 1`; but a position on the FIRST
line (0-based line 0) is dropped by the truthiness test
`e.mark?.line ? e.mark.line + 1 : undefined`, so the entry carries no line
number there. -/
theorem yaml_syntax_error_first_line :
    RuleEngine.validateYamlFromParse (α := Unit)
        (.error ⟨"unexpected end of the stream", some ⟨0⟩⟩)
        (fun _ => ⟨true, [], 0, none⟩) =
      ⟨false, [⟨"", "YAML syntax error: unexpected end of the stream", none⟩], 0, none⟩
    ∧ RuleEngine.syntaxErrorLine ⟨"bad indentation", some ⟨4⟩⟩ = some 5
    ∧ RuleEngine.syntaxErrorLine ⟨"eof", none⟩ = none := by
  decide

end Gateway
